import Mathlib

/-!
Verification of the support/resistance analysis core (sr_core.py).

The Python source is shallowly embedded: pandas Series of floats become
`List ℚ`, DataFrames become structures of parallel lists, timestamps become
natural numbers, and missing values (NaN / absent columns) become `Option`.
All arithmetic is exact rational arithmetic; the float literals 1.01, 0.99
and 1e-6 of the source are embedded as the rationals 101/100, 99/100 and
1/1000000.
-/

namespace SRCore

/-! ### Indicator engine: RSI (compute_rsi, sr_core.py lines 39-48) -/

/-- Positive part of the bar-to-bar delta at index `i`, after the masking
step `delta.where(delta > 0, 0)`.  In pandas `series.diff()` puts NaN at
index 0 and the `where` turns that NaN into 0 (NaN > 0 is false), so the
embedded value at index 0 is 0. -/
def gainAt (series : List ℚ) (i : ℕ) : ℚ :=
  if i = 0 then 0
  else if 0 < series.getD i 0 - series.getD (i - 1) 0 then
    series.getD i 0 - series.getD (i - 1) 0
  else 0

/-- Negative part (absolute value) of the bar-to-bar delta at index `i`,
after the masking step `(-delta).where(delta < 0, 0)`; index 0 is 0 for the
same NaN-masking reason as in `gainAt`. -/
def lossAt (series : List ℚ) (i : ℕ) : ℚ :=
  if i = 0 then 0
  else if series.getD i 0 - series.getD (i - 1) 0 < 0 then
    -(series.getD i 0 - series.getD (i - 1) 0)
  else 0

/-- Value at index `i` of `rolling(window=w, min_periods=1).mean()` applied
to the pointwise series `v`: the mean of the last `min w (i+1)` values. -/
def rollingMeanAt (v : ℕ → ℚ) (w i : ℕ) : ℚ :=
  (((List.range (min w (i + 1))).map (fun j => v (i - j))).sum) / ((min w (i + 1) : ℕ) : ℚ)

/-- RSI value at index `i`: `rs = gain/(loss + 1e-6)`, `RSI = 100 - 100/(1+rs)`. -/
def rsiAt (series : List ℚ) (period i : ℕ) : ℚ :=
  100 - 100 / (1 + rollingMeanAt (gainAt series) period i /
    (rollingMeanAt (lossAt series) period i + 1 / 1000000))

/-- Embedding of `compute_rsi` (sr_core.py lines 39-48). -/
def compute_rsi (series : List ℚ) (period : ℕ) : List ℚ :=
  (List.range series.length).map (fun i => rsiAt series period i)

theorem gainAt_nonneg (s : List ℚ) (i : ℕ) : 0 ≤ gainAt s i := by
  unfold gainAt
  split
  · exact le_refl 0
  · split
    · linarith
    · exact le_refl 0

theorem lossAt_nonneg (s : List ℚ) (i : ℕ) : 0 ≤ lossAt s i := by
  unfold lossAt
  split
  · exact le_refl 0
  · split
    · linarith
    · exact le_refl 0

theorem rollingMeanAt_nonneg (v : ℕ → ℚ) (w i : ℕ) (hv : ∀ j, 0 ≤ v j) :
    0 ≤ rollingMeanAt v w i := by
  unfold rollingMeanAt
  apply div_nonneg
  · apply List.sum_nonneg
    intro x hx
    obtain ⟨j, _, rfl⟩ := List.mem_map.mp hx
    exact hv _
  · exact_mod_cast Nat.zero_le _

theorem rsiAt_mem_Icc (s : List ℚ) (period i : ℕ) :
    rsiAt s period i ∈ Set.Icc (0 : ℚ) 100 := by
  unfold rsiAt
  have hg : 0 ≤ rollingMeanAt (gainAt s) period i :=
    rollingMeanAt_nonneg _ _ _ (gainAt_nonneg s)
  have hl : 0 ≤ rollingMeanAt (lossAt s) period i :=
    rollingMeanAt_nonneg _ _ _ (lossAt_nonneg s)
  set g := rollingMeanAt (gainAt s) period i
  set l := rollingMeanAt (lossAt s) period i
  have hden : (0 : ℚ) < l + 1 / 1000000 := by linarith
  have hrs : 0 ≤ g / (l + 1 / 1000000) := div_nonneg hg hden.le
  set rs := g / (l + 1 / 1000000)
  have h1 : (0 : ℚ) < 1 + rs := by linarith
  constructor
  · have : 100 / (1 + rs) ≤ 100 := by
      rw [div_le_iff₀ h1]
      nlinarith
    linarith
  · have : 0 ≤ 100 / (1 + rs) := div_nonneg (by norm_num) h1.le
    linarith

theorem getD_replicate_of_lt (c : ℚ) (n i : ℕ) (h : i < n) :
    (List.replicate n c).getD i 0 = c := by
  rw [List.getD_eq_getElem?_getD, List.getElem?_replicate, if_pos h]
  rfl

theorem getD_map_range (f : ℕ → ℚ) (n i : ℕ) (h : i < n) :
    ((List.range n).map f).getD i 0 = f i := by
  rw [List.getD_eq_getElem?_getD, List.getElem?_map, List.getElem?_range h]
  rfl

theorem gainAt_replicate_eq_zero (c : ℚ) (n i : ℕ) (hi : i < n) :
    gainAt (List.replicate n c) i = 0 := by
  unfold gainAt
  split
  · rfl
  · rw [getD_replicate_of_lt c n i hi, getD_replicate_of_lt c n (i - 1) (by omega)]
    norm_num

theorem lossAt_replicate_eq_zero (c : ℚ) (n i : ℕ) (hi : i < n) :
    lossAt (List.replicate n c) i = 0 := by
  unfold lossAt
  split
  · rfl
  · rw [getD_replicate_of_lt c n i hi, getD_replicate_of_lt c n (i - 1) (by omega)]
    norm_num

theorem rsiAt_replicate (c : ℚ) (period n i : ℕ) (hi : i < n) :
    rsiAt (List.replicate n c) period i = 0 := by
  unfold rsiAt rollingMeanAt
  have hg : ∀ x ∈ (List.range (min period (i + 1))).map
      (fun j => gainAt (List.replicate n c) (i - j)), x = 0 := by
    intro x hx
    obtain ⟨j, _, rfl⟩ := List.mem_map.mp hx
    exact gainAt_replicate_eq_zero c n _ (by omega)
  have hl : ∀ x ∈ (List.range (min period (i + 1))).map
      (fun j => lossAt (List.replicate n c) (i - j)), x = 0 := by
    intro x hx
    obtain ⟨j, _, rfl⟩ := List.mem_map.mp hx
    exact lossAt_replicate_eq_zero c n _ (by omega)
  rw [List.sum_eq_zero hg, List.sum_eq_zero hl]
  norm_num

/-- C6: every value returned by compute_rsi lies in [0, 100], and on a constant
price series avg gain and avg loss are both 0, so rs = 0 and RSI is exactly
100 - 100/(1+0) = 0 at every bar. -/
theorem compute_rsi_range_and_constant (s : List ℚ) (period : ℕ) (_hp : 0 < period) :
    (∀ x ∈ compute_rsi s period, 0 ≤ x ∧ x ≤ 100) ∧
    ∀ (c : ℚ) (n : ℕ), compute_rsi (List.replicate n c) period = List.replicate n 0 := by
  refine ⟨?_, ?_⟩
  · intro x hx
    obtain ⟨i, _, rfl⟩ := List.mem_map.mp hx
    have := rsiAt_mem_Icc s period i
    exact ⟨this.1, this.2⟩
  · intro c n
    unfold compute_rsi
    have hmem : ∀ b ∈ (List.range (List.replicate n c).length).map
        (fun i => rsiAt (List.replicate n c) period i), b = 0 := by
      intro b hb
      obtain ⟨i, hi, rfl⟩ := List.mem_map.mp hb
      rw [List.mem_range, List.length_replicate] at hi
      exact rsiAt_replicate c period n i hi
    have := List.eq_replicate_of_mem hmem
    simpa using this

theorem compute_rsi_range_and_constant_witness :
    0 < 14 ∧ ((∀ x ∈ compute_rsi [1, 2, 3] 14, 0 ≤ x ∧ x ≤ 100) ∧
      ∀ (c : ℚ) (n : ℕ), compute_rsi (List.replicate n c) 14 = List.replicate n 0) :=
  ⟨by decide, compute_rsi_range_and_constant [1, 2, 3] 14 (by decide)⟩

/-- A 50-bar series increasing by exactly 1e-6 per bar: strictly monotone, yet
its increments equal the epsilon of the RSI formula. -/
def uptrendTiny : List ℚ := (List.range 50).map (fun i : ℕ => (i : ℚ) / 1000000)

theorem uptrendTiny_getD (i : ℕ) (h : i < 50) :
    uptrendTiny.getD i 0 = (i : ℚ) / 1000000 := by
  unfold uptrendTiny
  exact getD_map_range _ 50 i h

/-- C7 counterexample: uptrendTiny is a strictly increasing 50-bar close
series, but compute_rsi with period 14 yields exactly 50 at the final bar
(each window delta equals the epsilon 1e-6, so rs = 1 and RSI = 50), refuting
the claim that the final RSI of every strictly increasing 50-bar series
exceeds 50. -/
theorem compute_rsi_uptrend_counterexample :
    (uptrendTiny.length = 50 ∧
      (∀ i, i + 1 < 50 → uptrendTiny.getD i 0 < uptrendTiny.getD (i + 1) 0)) ∧
    ¬ (50 < (compute_rsi uptrendTiny 14).getD 49 0) := by
  refine ⟨⟨by unfold uptrendTiny; rw [List.length_map, List.length_range], ?_⟩, ?_⟩
  · intro i hi
    rw [uptrendTiny_getD i (by omega), uptrendTiny_getD (i + 1) hi]
    have : (i : ℚ) < ((i + 1 : ℕ) : ℚ) := by push_cast; linarith
    apply div_lt_div_of_pos_right this
    norm_num
  · have hval : (compute_rsi uptrendTiny 14).getD 49 0 = rsiAt uptrendTiny 14 49 := by
      unfold compute_rsi
      rw [show uptrendTiny.length = 50 by
        unfold uptrendTiny; rw [List.length_map, List.length_range]]
      exact getD_map_range _ 50 49 (by omega)
    rw [hval]
    unfold rsiAt rollingMeanAt
    rw [show min 14 (49 + 1) = 14 from rfl]
    have hgain : ∀ x ∈ (List.range 14).map (fun j => gainAt uptrendTiny (49 - j)),
        x = 1 / 1000000 := by
      intro x hx
      obtain ⟨j, hj, rfl⟩ := List.mem_map.mp hx
      rw [List.mem_range] at hj
      unfold gainAt
      rw [if_neg (by omega)]
      rw [uptrendTiny_getD (49 - j) (by omega), uptrendTiny_getD (49 - j - 1) (by omega)]
      have hcast : ((49 - j : ℕ) : ℚ) / 1000000 - ((49 - j - 1 : ℕ) : ℚ) / 1000000
          = 1 / 1000000 := by
        have h1 : ((49 - j : ℕ) : ℚ) = 49 - (j : ℚ) := by
          push_cast [Nat.cast_sub (by omega : j ≤ 49)]; ring
        have h2 : ((49 - j - 1 : ℕ) : ℚ) = 48 - (j : ℚ) := by
          have : (49 - j - 1 : ℕ) = 48 - j := by omega
          rw [this]
          push_cast [Nat.cast_sub (by omega : j ≤ 48)]; ring
        rw [h1, h2]; ring
      rw [hcast, if_pos (by norm_num)]
    have hloss : ∀ x ∈ (List.range 14).map (fun j => lossAt uptrendTiny (49 - j)),
        x = 0 := by
      intro x hx
      obtain ⟨j, hj, rfl⟩ := List.mem_map.mp hx
      rw [List.mem_range] at hj
      unfold lossAt
      rw [if_neg (by omega)]
      rw [uptrendTiny_getD (49 - j) (by omega), uptrendTiny_getD (49 - j - 1) (by omega)]
      rw [if_neg]
      have h1 : ((49 - j - 1 : ℕ) : ℚ) ≤ ((49 - j : ℕ) : ℚ) := by
        exact_mod_cast Nat.sub_le _ _
      have := div_le_div_of_nonneg_right (c := (1000000 : ℚ)) h1 (by norm_num)
      linarith
    have hsg : (((List.range 14).map (fun j => gainAt uptrendTiny (49 - j))).sum)
        = 14 / 1000000 := by
      rw [List.sum_eq_card_nsmul _ (1 / 1000000) hgain]
      simp
      norm_num
    have hsl : (((List.range 14).map (fun j => lossAt uptrendTiny (49 - j))).sum) = 0 :=
      List.sum_eq_zero hloss
    rw [hsg, hsl]
    norm_num

theorem mul_length_lt_sum (c : ℚ) :
    ∀ (l : List ℚ), l ≠ [] → (∀ x ∈ l, c < x) → c * l.length < l.sum := by
  intro l
  induction l with
  | nil => intro h; exact absurd rfl h
  | cons a t ih =>
    intro _ h
    rcases eq_or_ne t [] with rfl | hne
    · simpa using h a (by simp)
    · have ht := ih hne (fun x hx => h x (List.mem_cons_of_mem _ hx))
      have ha := h a (List.mem_cons_self a t)
      simp only [List.sum_cons, List.length_cons]
      push_cast
      linarith

/-- C7 (amended): for a 50-bar close series whose consecutive increments each
exceed 1e-6 (the epsilon of the RSI formula), compute_rsi with period 14
yields a value strictly greater than 50 at the final bar.  The original claim
quantified over all strictly increasing series; uptrendTiny shows that
increments at or below epsilon can leave the final RSI at or below 50. -/
theorem compute_rsi_uptrend_amended (s : List ℚ) (h50 : s.length = 50)
    (hinc : ∀ i < 50, 1 ≤ i → s.getD (i - 1) 0 + 1 / 1000000 < s.getD i 0) :
    50 < (compute_rsi s 14).getD 49 0 := by
  have hval : (compute_rsi s 14).getD 49 0 = rsiAt s 14 49 := by
    unfold compute_rsi
    rw [h50]
    exact getD_map_range _ 50 49 (by omega)
  rw [hval]
  unfold rsiAt rollingMeanAt
  rw [show min 14 (49 + 1) = 14 from rfl]
  have hgmem : ∀ x ∈ (List.range 14).map (fun j => gainAt s (49 - j)),
      1 / 1000000 < x := by
    intro x hx
    obtain ⟨j, hj, rfl⟩ := List.mem_map.mp hx
    rw [List.mem_range] at hj
    have hd := hinc (49 - j) (by omega) (by omega)
    unfold gainAt
    rw [if_neg (by omega)]
    rw [if_pos (by linarith)]
    linarith
  have hlmem : ∀ x ∈ (List.range 14).map (fun j => lossAt s (49 - j)), x = 0 := by
    intro x hx
    obtain ⟨j, hj, rfl⟩ := List.mem_map.mp hx
    rw [List.mem_range] at hj
    have hd := hinc (49 - j) (by omega) (by omega)
    unfold lossAt
    rw [if_neg (by omega)]
    rw [if_neg (by linarith)]
  have hsumg : (1 : ℚ) / 1000000 * 14 <
      (((List.range 14).map (fun j => gainAt s (49 - j))).sum) := by
    have := mul_length_lt_sum (1 / 1000000)
      ((List.range 14).map (fun j => gainAt s (49 - j))) (by simp) hgmem
    simpa using this
  have hsuml : (((List.range 14).map (fun j => lossAt s (49 - j))).sum) = 0 :=
    List.sum_eq_zero hlmem
  rw [hsuml]
  set A := (((List.range 14).map (fun j => gainAt s (49 - j))).sum) with hA
  have hgain : (1 : ℚ) / 1000000 < A / ((14 : ℕ) : ℚ) := by
    rw [lt_div_iff₀ (by norm_num : (0:ℚ) < ((14:ℕ):ℚ))]
    push_cast
    linarith
  have hrs : 1 < (A / ((14 : ℕ) : ℚ)) / ((0 : ℚ) / ((14 : ℕ) : ℚ) + 1 / 1000000) := by
    rw [zero_div, zero_add, lt_div_iff₀ (by norm_num : (0:ℚ) < 1/1000000)]
    linarith
  set rs := (A / ((14 : ℕ) : ℚ)) / ((0 : ℚ) / ((14 : ℕ) : ℚ) + 1 / 1000000)
  have h2 : (2 : ℚ) < 1 + rs := by linarith
  have : 100 / (1 + rs) < 50 := by
    rw [div_lt_iff₀ (by linarith)]
    linarith
  linarith

/-- A 50-bar series increasing by 1 per bar. -/
def uptrendUnit : List ℚ := (List.range 50).map (fun i : ℕ => (i : ℚ))

theorem compute_rsi_uptrend_amended_witness :
    (uptrendUnit.length = 50 ∧
      ∀ i < 50, 1 ≤ i → uptrendUnit.getD (i - 1) 0 + 1 / 1000000 < uptrendUnit.getD i 0) ∧
    50 < (compute_rsi uptrendUnit 14).getD 49 0 := by
  have hlen : uptrendUnit.length = 50 := by
    unfold uptrendUnit; rw [List.length_map, List.length_range]
  have hinc : ∀ i < 50, 1 ≤ i →
      uptrendUnit.getD (i - 1) 0 + 1 / 1000000 < uptrendUnit.getD i 0 := by
    intro i hi h1
    unfold uptrendUnit
    rw [getD_map_range _ 50 i hi, getD_map_range _ 50 (i - 1) (by omega)]
    have : ((i - 1 : ℕ) : ℚ) = (i : ℚ) - 1 := by
      push_cast [Nat.cast_sub h1]; ring
    rw [this]
    linarith
  exact ⟨⟨hlen, hinc⟩, compute_rsi_uptrend_amended uptrendUnit hlen hinc⟩

/-! ### Indicator engine: MACD (compute_macd, sr_core.py lines 50-58) -/

/-- Tail of the recursive (adjust=False) exponential moving average:
each value is `(1 - alpha) * previous + alpha * observation`. -/
def ewmAux (alpha prev : ℚ) : List ℚ → List ℚ
  | [] => []
  | x :: xs => ((1 - alpha) * prev + alpha * x) :: ewmAux alpha ((1 - alpha) * prev + alpha * x) xs

/-- Embedding of `series.ewm(span=span, adjust=False).mean()`: smoothing
factor `2/(span+1)`, seeded by the first observation. -/
def ewmMean (span : ℕ) : List ℚ → List ℚ
  | [] => []
  | x :: xs => x :: ewmAux (2 / ((span : ℚ) + 1)) x xs

/-- Embedding of `compute_macd` (sr_core.py lines 50-58): MACD is the fast
EMA minus the slow EMA of the close, the signal line is the EMA of the MACD
series. -/
def compute_macd (series : List ℚ) (fast slow signal : ℕ) : List ℚ × List ℚ :=
  (List.zipWith (fun a b => a - b) (ewmMean fast series) (ewmMean slow series),
   ewmMean signal (List.zipWith (fun a b => a - b) (ewmMean fast series) (ewmMean slow series)))

/-- C9: compute_macd is a deterministic pure function of its arguments: two
evaluations on equal inputs produce identical MACD and signal-line series;
no hidden state enters the embedded computation. -/
theorem compute_macd_deterministic (s₁ s₂ : List ℚ) (fast slow signal : ℕ)
    (h : s₁ = s₂) :
    compute_macd s₁ fast slow signal = compute_macd s₂ fast slow signal := by
  rw [h]

theorem compute_macd_deterministic_witness :
    ([1, 2, 3] : List ℚ) = [1, 2, 3] ∧
    compute_macd [1, 2, 3] 12 26 9 = compute_macd [1, 2, 3] 12 26 9 :=
  ⟨rfl, compute_macd_deterministic [1, 2, 3] [1, 2, 3] 12 26 9 rfl⟩

/-! ### Data model for levels and signals -/

/-- Level kind: the `type` field of the level dictionaries. -/
inductive LevelType where
  | support
  | resistance
deriving DecidableEq

/-- A support/resistance level dictionary: `{"type", "price", "date"}`. -/
structure SRLevel where
  type : LevelType
  price : ℚ
  date : ℕ
deriving DecidableEq

/-- A signal dictionary produced by `generate_signals`. -/
structure Signal where
  signal : String
  reason : String
  price : ℚ
  time : ℕ
  rsi : Option ℚ
  macd : Option ℚ
  volume : Option ℚ
deriving DecidableEq

/-- Column-wise embedding of the DataFrame handed to `generate_signals`.
`index` carries the timestamps; `close` is the Close column; the optional
columns model column absence (`last_row.get(col, None)` returns None and
`if col in df.columns` fails exactly when the field is `none`).  Values in
present columns are plain rationals: in `analyze` the frame reaching
`generate_signals` has been through `dropna`, and the RSI/MACD columns of
the embedded indicator engine are total. -/
structure IndicatorFrame where
  index : List ℕ
  close : List ℚ
  volume : Option (List ℚ)
  rsi : Option (List ℚ)
  macd : Option (List ℚ)
  macdSig : Option (List ℚ)
deriving DecidableEq

/-! ### Signal generator (generate_signals, sr_core.py lines 60-119) -/

/-- `last_row["Close"]`. -/
def lastClose (df : IndicatorFrame) : ℚ := df.close.getLastD 0

/-- `last_row.name` (the timestamp of the last row). -/
def lastTime (df : IndicatorFrame) : ℕ := df.index.getLastD 0

/-- `last_row.get("RSI", None)`. -/
def lastRsi (df : IndicatorFrame) : Option ℚ := df.rsi.map (fun c => c.getLastD 0)

/-- `last_row.get("MACD", None)`. -/
def lastMacd (df : IndicatorFrame) : Option ℚ := df.macd.map (fun c => c.getLastD 0)

/-- `last_row.get("MACD_Signal", None)`. -/
def lastMacdSig (df : IndicatorFrame) : Option ℚ := df.macdSig.map (fun c => c.getLastD 0)

/-- `last_row.get("Volume", None)`. -/
def currentVolume (df : IndicatorFrame) : Option ℚ := df.volume.map (fun c => c.getLastD 0)

/-- `df["Volume"].rolling(20).mean().iloc[-1] if "Volume" in df.columns else None`.
`rolling(20)` leaves `min_periods` at its default of 20, so with fewer than
20 rows the last value is NaN; a NaN average makes the downstream comparison
`current_volume > avg_volume` false, exactly as `none` does here. -/
def avgVolume (df : IndicatorFrame) : Option ℚ :=
  match df.volume with
  | none => none
  | some vol => if 20 ≤ vol.length then some ((vol.drop (vol.length - 20)).sum / 20) else none

/-- The volume clause
`(not use_volume or (current_volume and avg_volume and current_volume > avg_volume))`:
Python truthiness makes a missing (None) or zero current volume and a missing
or NaN average fail the clause. -/
def volumeOK (df : IndicatorFrame) (use_volume : Bool) : Bool :=
  !use_volume ||
    (match currentVolume df, avgVolume df with
     | some cv, some av => !(cv == 0) && decide (av < cv)
     | _, _ => false)

/-- The BUY test for one level (sr_core.py lines 80-82). -/
def levelBuy (df : IndicatorFrame) (use_volume : Bool) (lvl : SRLevel) : Bool :=
  lvl.type == LevelType.support && decide (lastClose df ≤ lvl.price * (101 / 100)) &&
    (match lastRsi df, lastMacd df, lastMacdSig df with
     | some r, some m, some ms => decide (r < 30) && decide (ms < m) && volumeOK df use_volume
     | _, _, _ => false)

/-- The SELL test for one level (sr_core.py lines 94-96). -/
def levelSell (df : IndicatorFrame) (use_volume : Bool) (lvl : SRLevel) : Bool :=
  lvl.type == LevelType.resistance && decide (lvl.price * (99 / 100) ≤ lastClose df) &&
    (match lastRsi df, lastMacd df, lastMacdSig df with
     | some r, some m, some ms => decide (70 < r) && decide (m < ms) && volumeOK df use_volume
     | _, _, _ => false)

/-- The BUY dictionary appended for a qualifying support level. -/
def buySignal (df : IndicatorFrame) (use_volume : Bool) : Signal :=
  { signal := "BUY"
    reason := "RSI oversold + near support + MACD bullish" ++
      (if use_volume then " + Volume confirmation" else "")
    price := lastClose df
    time := lastTime df
    rsi := lastRsi df
    macd := lastMacd df
    volume := currentVolume df }

/-- The SELL dictionary appended for a qualifying resistance level. -/
def sellSignal (df : IndicatorFrame) (use_volume : Bool) : Signal :=
  { signal := "SELL"
    reason := "RSI overbought + near resistance + MACD bearish" ++
      (if use_volume then " + Volume confirmation" else "")
    price := lastClose df
    time := lastTime df
    rsi := lastRsi df
    macd := lastMacd df
    volume := currentVolume df }

/-- The HOLD dictionary appended when no level qualified. -/
def holdSignal (df : IndicatorFrame) : Signal :=
  { signal := "HOLD"
    reason := "No strong signal"
    price := lastClose df
    time := lastTime df
    rsi := lastRsi df
    macd := lastMacd df
    volume := currentVolume df }

/-- `sr_levels[-5:]`. -/
def lastFive (sr_levels : List SRLevel) : List SRLevel :=
  sr_levels.drop (sr_levels.length - 5)

/-- The signals appended by the loop over `sr_levels[-5:]` (sr_core.py lines
78-106): each qualifying level independently appends a BUY and/or a SELL. -/
def signalsCore (df : IndicatorFrame) (sr_levels : List SRLevel)
    (use_volume : Bool) : List Signal :=
  ((lastFive sr_levels).map (fun lvl =>
      (if levelBuy df use_volume lvl then [buySignal df use_volume] else []) ++
      (if levelSell df use_volume lvl then [sellSignal df use_volume] else []))).flatten

/-- Embedding of `generate_signals` (sr_core.py lines 60-119): the loop body
appends a BUY and/or a SELL per qualifying level among the five most recent;
if none was appended (`signal_generated` stayed false), a single HOLD is
produced. -/
def generate_signals (df : IndicatorFrame) (sr_levels : List SRLevel)
    (use_volume : Bool) : List Signal :=
  if (signalsCore df sr_levels use_volume).isEmpty then [holdSignal df]
  else signalsCore df sr_levels use_volume

theorem signalsCore_eq_nil_of_none (df : IndicatorFrame) (sr_levels : List SRLevel)
    (use_volume : Bool)
    (h : ∀ lvl ∈ lastFive sr_levels, levelBuy df use_volume lvl = false ∧
      levelSell df use_volume lvl = false) :
    signalsCore df sr_levels use_volume = [] := by
  unfold signalsCore
  rw [List.flatten_eq_nil_iff]
  intro l hl
  obtain ⟨lvl, hmem, rfl⟩ := List.mem_map.mp hl
  rw [(h lvl hmem).1, (h lvl hmem).2]
  simp

/-- C4: for a frame with at least one bar and any level list, generate_signals
returns a non-empty list; when no level among the five most recent passes the
BUY or SELL test, the result is exactly one HOLD signal whose reason is
"No strong signal" and which carries the RSI, MACD and volume of the last bar. -/
theorem generate_signals_nonempty_and_hold (df : IndicatorFrame)
    (sr_levels : List SRLevel) (use_volume : Bool) (_hne : df.index ≠ []) :
    generate_signals df sr_levels use_volume ≠ [] ∧
    ((∀ lvl ∈ lastFive sr_levels, levelBuy df use_volume lvl = false ∧
        levelSell df use_volume lvl = false) →
      generate_signals df sr_levels use_volume = [holdSignal df]) ∧
    (holdSignal df).signal = "HOLD" ∧
    (holdSignal df).reason = "No strong signal" ∧
    (holdSignal df).rsi = lastRsi df ∧
    (holdSignal df).macd = lastMacd df ∧
    (holdSignal df).volume = currentVolume df := by
  refine ⟨?_, ?_, rfl, rfl, rfl, rfl, rfl⟩
  · unfold generate_signals
    split
    · simp
    · next h =>
      intro hc
      rw [hc] at h
      simp at h
  · intro hall
    unfold generate_signals
    rw [signalsCore_eq_nil_of_none df sr_levels use_volume hall]
    simp

/-- A one-bar frame with all indicator columns present. -/
def oneBarFrame : IndicatorFrame :=
  { index := [0], close := [100], volume := some [10]
    rsi := some [50], macd := some [1], macdSig := some [1] }

theorem generate_signals_nonempty_and_hold_witness :
    oneBarFrame.index ≠ [] ∧
    (generate_signals oneBarFrame [] false ≠ [] ∧
    ((∀ lvl ∈ lastFive [], levelBuy oneBarFrame false lvl = false ∧
        levelSell oneBarFrame false lvl = false) →
      generate_signals oneBarFrame [] false = [holdSignal oneBarFrame]) ∧
    (holdSignal oneBarFrame).signal = "HOLD" ∧
    (holdSignal oneBarFrame).reason = "No strong signal" ∧
    (holdSignal oneBarFrame).rsi = lastRsi oneBarFrame ∧
    (holdSignal oneBarFrame).macd = lastMacd oneBarFrame ∧
    (holdSignal oneBarFrame).volume = currentVolume oneBarFrame) :=
  ⟨by simp [oneBarFrame],
   generate_signals_nonempty_and_hold oneBarFrame [] false (by simp [oneBarFrame])⟩


/-- True when `pat` occurs as a contiguous substring of `s` (character lists). -/
def charsContain (pat : List Char) : List Char → Bool
  | [] => pat.isEmpty
  | c :: rest => pat.isPrefixOf (c :: rest) || charsContain pat rest

/-- True when `pat` occurs as a contiguous substring of `s`. -/
def strContains (s pat : String) : Bool := charsContain pat.toList s.toList

/-- The predicate picking BUY entries out of a signal list. -/
def isBuySig (s : Signal) : Bool := s.signal == "BUY"

/-- BUY qualification as worded by the specification, for comparison with the
code-side `levelBuy`: level is support, close at most price times 1.01,
RSI < 30, MACD above the signal line, and the volume filter disabled or the
current volume above the 20-bar rolling average at the last bar. -/
def specBuyQualifies (df : IndicatorFrame) (use_volume : Bool) (lvl : SRLevel) : Bool :=
  lvl.type == LevelType.support && decide (lastClose df ≤ lvl.price * (101 / 100)) &&
  (match lastRsi df with | some r => decide (r < 30) | none => false) &&
  (match lastMacd df, lastMacdSig df with
   | some m, some ms => decide (ms < m)
   | _, _ => false) &&
  (!use_volume ||
    (match currentVolume df, avgVolume df with
     | some cv, some av => decide (av < cv)
     | _, _ => false))

theorem avgVolume_nonneg (df : IndicatorFrame)
    (hnn : ∀ col, df.volume = some col → ∀ v ∈ col, 0 ≤ v) :
    ∀ a, avgVolume df = some a → 0 ≤ a := by
  intro a ha
  unfold avgVolume at ha
  cases hv : df.volume with
  | none => rw [hv] at ha; exact absurd ha (by simp)
  | some col =>
    rw [hv] at ha
    dsimp only at ha
    by_cases hlen : 20 ≤ col.length
    · rw [if_pos hlen] at ha
      have hsum : 0 ≤ (col.drop (col.length - 20)).sum := by
        apply List.sum_nonneg
        intro x hx
        exact hnn col hv x (List.mem_of_mem_drop hx)
      rw [← Option.some.inj ha]
      positivity
    · rw [if_neg hlen] at ha
      exact absurd ha (by simp)

theorem volumeOK_eq_spec (df : IndicatorFrame) (use_volume : Bool)
    (hnn : ∀ col, df.volume = some col → ∀ v ∈ col, 0 ≤ v) :
    volumeOK df use_volume = (!use_volume ||
      (match currentVolume df, avgVolume df with
       | some cv, some av => decide (av < cv)
       | _, _ => false)) := by
  unfold volumeOK
  congr 1
  cases hcv : currentVolume df with
  | none => rfl
  | some cv =>
    cases hav : avgVolume df with
    | none => rfl
    | some av =>
      dsimp only
      cases hd : decide (av < cv) with
      | false => simp
      | true =>
        have hlt : av < cv := of_decide_eq_true hd
        have hav0 : 0 ≤ av := avgVolume_nonneg df hnn av hav
        have : ¬ (cv = 0) := by intro h; rw [h] at hlt; linarith
        simp [this]

theorem levelBuy_eq_spec (df : IndicatorFrame) (use_volume : Bool) (lvl : SRLevel)
    (hrsi : (lastRsi df).isSome = true) (hmacd : (lastMacd df).isSome = true)
    (hsig : (lastMacdSig df).isSome = true)
    (hnn : ∀ col, df.volume = some col → ∀ v ∈ col, 0 ≤ v) :
    levelBuy df use_volume lvl = specBuyQualifies df use_volume lvl := by
  obtain ⟨r, hr⟩ := Option.isSome_iff_exists.mp hrsi
  obtain ⟨m, hm⟩ := Option.isSome_iff_exists.mp hmacd
  obtain ⟨ms, hs⟩ := Option.isSome_iff_exists.mp hsig
  unfold levelBuy specBuyQualifies
  rw [hr, hm, hs, volumeOK_eq_spec df use_volume hnn]
  dsimp only
  cases lvl.type == LevelType.support <;>
    cases decide (lastClose df ≤ lvl.price * (101 / 100)) <;>
      cases decide (r < 30) <;> cases decide (ms < m) <;> simp

theorem countP_signalsCore_buy (df : IndicatorFrame) (use_volume : Bool) :
    ∀ ls : List SRLevel,
      ((ls.map (fun lvl =>
        (if levelBuy df use_volume lvl then [buySignal df use_volume] else []) ++
        (if levelSell df use_volume lvl then [sellSignal df use_volume] else []))).flatten).countP
          isBuySig
      = (ls.filter (levelBuy df use_volume)).length := by
  intro ls
  induction ls with
  | nil => simp
  | cons a t ih =>
    simp only [List.map_cons, List.flatten_cons, List.countP_append, List.filter_cons]
    rw [ih]
    have hbuy : (List.countP isBuySig [buySignal df use_volume]) = 1 := by
      simp [List.countP_cons, isBuySig, buySignal]
    have hsell : (List.countP isBuySig [sellSignal df use_volume]) = 0 := by
      simp [List.countP_cons, isBuySig, sellSignal]
    cases hb : levelBuy df use_volume a <;> cases hs : levelSell df use_volume a <;>
      simp [hbuy, hsell] <;> omega

theorem countP_generate_signals_buy (df : IndicatorFrame) (sr_levels : List SRLevel)
    (use_volume : Bool) :
    (generate_signals df sr_levels use_volume).countP isBuySig
      = ((lastFive sr_levels).filter (levelBuy df use_volume)).length := by
  unfold generate_signals
  split
  · next h =>
    rw [List.isEmpty_iff] at h
    unfold signalsCore at h
    rw [← countP_signalsCore_buy df use_volume (lastFive sr_levels), h]
    simp [List.countP_cons, isBuySig, holdSignal]
  · exact countP_signalsCore_buy df use_volume (lastFive sr_levels)

theorem mem_generate_signals (df : IndicatorFrame) (sr_levels : List SRLevel)
    (use_volume : Bool) (s : Signal) (hs : s ∈ generate_signals df sr_levels use_volume) :
    s = holdSignal df ∨ s = buySignal df use_volume ∨ s = sellSignal df use_volume := by
  unfold generate_signals at hs
  split at hs
  · left
    simpa using hs
  · unfold signalsCore at hs
    obtain ⟨l, hl, hsl⟩ := List.mem_flatten.mp hs
    obtain ⟨lvl, _, rfl⟩ := List.mem_map.mp hl
    rcases List.mem_append.mp hsl with h | h
    · right; left
      cases hb : levelBuy df use_volume lvl
      · rw [hb] at h
        simp at h
      · rw [hb] at h
        exact List.mem_singleton.mp h
    · right; right
      cases hb : levelSell df use_volume lvl
      · rw [hb] at h
        simp at h
      · rw [hb] at h
        exact List.mem_singleton.mp h

/-- C1: for a frame whose last bar has non-null RSI, MACD and MACD_Signal
(and non-negative volumes, per the data model), generate_signals appends one
BUY per level among the five most recent that meets the spec BUY condition —
support, close at most price times 1.01, RSI < 30, MACD above its signal
line, and volume filter disabled or current volume above the 20-bar average —
and with the volume filter disabled every BUY reason contains "RSI oversold"
and does not contain "Volume confirmation". -/
theorem generate_signals_buy_exact (df : IndicatorFrame) (sr_levels : List SRLevel)
    (use_volume : Bool) (_hne : df.index ≠ [])
    (hrsi : (lastRsi df).isSome = true) (hmacd : (lastMacd df).isSome = true)
    (hsig : (lastMacdSig df).isSome = true)
    (hnn : ∀ col, df.volume = some col → ∀ v ∈ col, 0 ≤ v) :
    (generate_signals df sr_levels use_volume).countP isBuySig
      = ((lastFive sr_levels).filter (specBuyQualifies df use_volume)).length ∧
    (use_volume = false →
      ∀ s ∈ generate_signals df sr_levels use_volume, isBuySig s = true →
        strContains s.reason "RSI oversold" = true ∧
        strContains s.reason "Volume confirmation" = false) := by
  constructor
  · rw [countP_generate_signals_buy df sr_levels use_volume]
    congr 1
    apply List.filter_congr
    intro lvl _
    exact levelBuy_eq_spec df use_volume lvl hrsi hmacd hsig hnn
  · rintro rfl s hs hb
    rcases mem_generate_signals df sr_levels false s hs with rfl | rfl | rfl
    · exact absurd hb (by simp [isBuySig, holdSignal])
    · have hreason : (buySignal df false).reason
          = "RSI oversold + near support + MACD bullish" := by
        simp [buySignal]
      rw [hreason]
      constructor <;> decide
    · exact absurd hb (by simp [isBuySig, sellSignal])

/-- A one-bar frame meeting all BUY conditions at a support level of price
100 with the volume filter disabled. -/
def buyFrame : IndicatorFrame :=
  { index := [7], close := [100], volume := some [10]
    rsi := some [25], macd := some [1], macdSig := some [0] }

theorem generate_signals_buy_exact_witness :
    (buyFrame.index ≠ [] ∧ (lastRsi buyFrame).isSome = true ∧
      (lastMacd buyFrame).isSome = true ∧ (lastMacdSig buyFrame).isSome = true ∧
      (∀ col, buyFrame.volume = some col → ∀ v ∈ col, 0 ≤ v)) ∧
    ((generate_signals buyFrame [⟨LevelType.support, 100, 3⟩] false).countP isBuySig
      = ((lastFive [⟨LevelType.support, 100, 3⟩]).filter
          (specBuyQualifies buyFrame false)).length ∧
    (false = false →
      ∀ s ∈ generate_signals buyFrame [⟨LevelType.support, 100, 3⟩] false,
        isBuySig s = true →
        strContains s.reason "RSI oversold" = true ∧
        strContains s.reason "Volume confirmation" = false)) := by
  have hnn : ∀ col, buyFrame.volume = some col → ∀ v ∈ col, 0 ≤ v := by
    intro col hc v hv
    have : col = [10] := by
      have := hc.symm
      simpa [buyFrame] using this
    subst this
    rcases List.mem_singleton.mp hv with rfl
    norm_num
  exact ⟨⟨by simp [buyFrame], rfl, rfl, rfl, hnn⟩,
    generate_signals_buy_exact buyFrame [⟨LevelType.support, 100, 3⟩] false
      (by simp [buyFrame]) rfl rfl rfl hnn⟩


theorem avgVolume_none_of_short (df : IndicatorFrame)
    (h : ∀ col, df.volume = some col → col.length < 20) : avgVolume df = none := by
  unfold avgVolume
  cases hv : df.volume with
  | none => rfl
  | some col =>
    dsimp only
    rw [if_neg (by have := h col hv; omega)]

theorem volumeOK_false_of_short (df : IndicatorFrame)
    (h : ∀ col, df.volume = some col → col.length < 20) :
    volumeOK df true = false := by
  unfold volumeOK
  rw [avgVolume_none_of_short df h]
  cases currentVolume df <;> simp

theorem levelBuy_false_of_short (df : IndicatorFrame) (lvl : SRLevel)
    (h : ∀ col, df.volume = some col → col.length < 20) :
    levelBuy df true lvl = false := by
  unfold levelBuy
  rw [volumeOK_false_of_short df h]
  cases lastRsi df <;> cases lastMacd df <;> cases lastMacdSig df <;> simp

theorem levelSell_false_of_short (df : IndicatorFrame) (lvl : SRLevel)
    (h : ∀ col, df.volume = some col → col.length < 20) :
    levelSell df true lvl = false := by
  unfold levelSell
  rw [volumeOK_false_of_short df h]
  cases lastRsi df <;> cases lastMacd df <;> cases lastMacdSig df <;> simp

/-- C2 (amended): with the volume filter enabled and fewer than 20 bars, the
20-bar rolling average is NaN — `rolling(20)` leaves `min_periods` at its
default of 20, unlike the min-one-observation windowing of RSI — so the
volume clause fails for every level and generate_signals returns exactly one
HOLD signal, never BUY or SELL.  The original claim asserted the average
degrades to the available bars and a qualifying level still yields BUY/SELL. -/
theorem generate_signals_short_series_amended (df : IndicatorFrame)
    (sr_levels : List SRLevel) (_hne : df.index ≠ [])
    (hshort : ∀ col, df.volume = some col → col.length < 20) :
    generate_signals df sr_levels true = [holdSignal df] := by
  unfold generate_signals
  rw [signalsCore_eq_nil_of_none df sr_levels true (fun lvl _ =>
    ⟨levelBuy_false_of_short df lvl hshort, levelSell_false_of_short df lvl hshort⟩)]
  simp

/-- A two-bar frame whose last bar meets every BUY condition except that the
series is too short for the 20-bar rolling volume average. -/
def shortFrame : IndicatorFrame :=
  { index := [0, 1], close := [100, 100], volume := some [10, 50]
    rsi := some [25, 25], macd := some [1, 1], macdSig := some [0, 0] }

/-- A support level at the last close. -/
def supportLevel : SRLevel := ⟨LevelType.support, 100, 0⟩

theorem shortFrame_short : ∀ col, shortFrame.volume = some col → col.length < 20 := by
  intro col hc
  have : col = [10, 50] := (Option.some.inj hc).symm
  subst this
  simp

theorem generate_signals_short_series_amended_witness :
    (shortFrame.index ≠ [] ∧ (∀ col, shortFrame.volume = some col → col.length < 20)) ∧
    generate_signals shortFrame [] true = [holdSignal shortFrame] :=
  ⟨⟨by simp [shortFrame], shortFrame_short⟩,
   generate_signals_short_series_amended shortFrame [] (by simp [shortFrame])
     shortFrame_short⟩

/-- C2 counterexample: shortFrame has two bars (fewer than 20) and
supportLevel meets every BUY condition except the volume clause — the current
volume 50 even exceeds the mean 30 of the available bars — yet with the
volume filter enabled generate_signals returns only HOLD: the code does not
use the min-one-observation windowing the claim asserts. -/
theorem generate_signals_short_series_counterexample :
    (shortFrame.index.length < 20 ∧
     supportLevel.type = LevelType.support ∧
     lastClose shortFrame ≤ supportLevel.price * (101 / 100) ∧
     lastRsi shortFrame = some 25 ∧ (25 : ℚ) < 30 ∧
     lastMacd shortFrame = some 1 ∧ lastMacdSig shortFrame = some 0 ∧ (0 : ℚ) < 1 ∧
     currentVolume shortFrame = some 50 ∧
     ([10, 50] : List ℚ).sum / (([10, 50] : List ℚ).length : ℚ) < 50) ∧
    generate_signals shortFrame [supportLevel] true = [holdSignal shortFrame] ∧
    (holdSignal shortFrame).signal = "HOLD" := by
  refine ⟨⟨by simp [shortFrame], rfl, ?_, rfl, by norm_num, rfl, rfl, by norm_num,
    rfl, ?_⟩, ?_, rfl⟩
  · show (100 : ℚ) ≤ 100 * (101 / 100)
    norm_num
  · show ((10 : ℚ) + (50 + 0)) / ((2 : ℕ) : ℚ) < 50
    norm_num
  · unfold generate_signals
    rw [signalsCore_eq_nil_of_none shortFrame [supportLevel] true (fun lvl _ =>
      ⟨levelBuy_false_of_short shortFrame lvl shortFrame_short,
       levelSell_false_of_short shortFrame lvl shortFrame_short⟩)]
    simp


/-! ### Swing detector (find_swings, sr_core.py lines 16-24)

`find_swings` calls `scipy.signal.find_peaks(x, distance=cfg.distance)`.
That call first collects local maxima (`_local_maxima_1d`): a sample strictly
greater than its direct neighbours, or the midpoint of a plateau of equal
values with strictly smaller values on both sides; it then enforces the
`distance` condition (`_select_by_peak_distance`): peaks are visited from
highest to lowest (numpy stable argsort of the peak heights, iterated in
reverse), and each still-kept peak removes every other peak closer than
`distance` positions on either side.  The input series reach `find_swings`
through `pd.to_numeric(...).dropna().values`; the embedding takes the already
numeric, NaN-free value lists. -/

/-- The `while i_ahead < i_max and x[i_ahead] == x[i]` scan: first index at
or after `iAhead` that leaves the plateau of value `v`, capped at `iMax`.
`fuel` only bounds the recursion; `iMax` steps always suffice. -/
def plateauEnd (x : List ℚ) (iMax : ℕ) (v : ℚ) : ℕ → ℕ → ℕ
  | iAhead, 0 => iAhead
  | iAhead, fuel + 1 =>
    if iAhead < iMax ∧ x.getD iAhead 0 = v then plateauEnd x iMax v (iAhead + 1) fuel
    else iAhead

/-- The scan position reached from the sample after `i`. -/
def piAhead (x : List ℚ) (iMax i : ℕ) : ℕ :=
  plateauEnd x iMax (x.getD i 0) (i + 1) iMax

/-- Main loop of `_local_maxima_1d`: emits plateau midpoints
`(left_edge + right_edge) // 2` and resumes after the plateau. -/
def lmAux (x : List ℚ) (iMax : ℕ) : ℕ → ℕ → List ℕ
  | _, 0 => []
  | i, fuel + 1 =>
    if i < iMax then
      if x.getD (i - 1) 0 < x.getD i 0 then
        if x.getD (piAhead x iMax i) 0 < x.getD i 0 then
          (i + (piAhead x iMax i - 1)) / 2 :: lmAux x iMax (piAhead x iMax i + 1) fuel
        else lmAux x iMax (i + 1) fuel
      else lmAux x iMax (i + 1) fuel
    else []

/-- All local maxima of `x` (plateau midpoints), in increasing order. -/
def localMaxima (x : List ℚ) : List ℕ :=
  lmAux x (x.length - 1) 1 (x.length + 1)

/-- Stable argsort of the peak heights: positions sorted by increasing
priority, ties by increasing position (numpy argsort is stable). -/
def argsortPriority (priority : List ℚ) : List ℕ :=
  List.insertionSort (fun a b =>
    priority.getD a 0 < priority.getD b 0 ∨
      (priority.getD a 0 = priority.getD b 0 ∧ a ≤ b)) (List.range priority.length)

/-- The `while 0 <= k and peaks[j] - peaks[k] < distance_` loop of
`_select_by_peak_distance`, walking left from position `k - 1`. -/
def markLeft (peaks : List ℕ) (pj d : ℕ) : List Bool → ℕ → List Bool
  | keep, 0 => keep
  | keep, k + 1 =>
    if (pj : ℤ) - (peaks.getD k 0 : ℤ) < (d : ℤ) then
      markLeft peaks pj d (keep.set k false) k
    else keep

/-- The `while k < peaks.shape[0] and peaks[k] - peaks[j] < distance_` loop,
walking right from position `k`. -/
def markRight (peaks : List ℕ) (pj d : ℕ) : List Bool → ℕ → ℕ → List Bool
  | keep, _, 0 => keep
  | keep, k, fuel + 1 =>
    if k < peaks.length ∧ (peaks.getD k 0 : ℤ) - (pj : ℤ) < (d : ℤ) then
      markRight peaks pj d (keep.set k false) (k + 1) fuel
    else keep

/-- Outer loop of `_select_by_peak_distance` over the processing order
(highest priority first): a position whose keep flag was already cleared is
skipped, otherwise it clears every position within `distance` on both sides. -/
def spdLoop (peaks : List ℕ) (d : ℕ) : List Bool → List ℕ → List Bool
  | keep, [] => keep
  | keep, j :: rest =>
    if keep.getD j false then
      spdLoop peaks d
        (markRight peaks (peaks.getD j 0) d
          (markLeft peaks (peaks.getD j 0) d keep j) (j + 1) peaks.length) rest
    else spdLoop peaks d keep rest

/-- `_select_by_peak_distance(peaks, x[peaks], distance)`: the final keep
flags. -/
def selectByPeakDistance (peaks : List ℕ) (priority : List ℚ) (d : ℕ) : List Bool :=
  spdLoop peaks d (List.replicate peaks.length true) (argsortPriority priority).reverse

/-- Embedding of `scipy.signal.find_peaks(x, distance=d)[0]` (position list
only; scipy additionally validates `distance >= 1`, which the call sites
satisfy). -/
def find_peaks (x : List ℚ) (d : ℕ) : List ℕ :=
  ((List.range (localMaxima x).length).filter (fun t =>
      (selectByPeakDistance (localMaxima x) ((localMaxima x).map (fun i => x.getD i 0)) d).getD
        t false)).map
    (fun t => (localMaxima x).getD t 0)

/-- Configuration class `SRConfig` (sr_core.py lines 7-14). -/
structure SRConfig where
  distance : ℕ
  tolerance : ℚ
  min_touches : ℕ
deriving DecidableEq

/-- Embedding of `find_swings` (sr_core.py lines 16-24): peaks of the high
series and peaks of the negated low series, both with the configured minimum
distance. -/
def find_swings (high low : List ℚ) (cfg : SRConfig) : List ℕ × List ℕ :=
  (find_peaks high cfg.distance, find_peaks (low.map (fun v => -v)) cfg.distance)


theorem plateauEnd_ge (x : List ℚ) (iMax : ℕ) (v : ℚ) :
    ∀ (fuel iAhead : ℕ), iAhead ≤ plateauEnd x iMax v iAhead fuel := by
  intro fuel
  induction fuel with
  | zero => intro iAhead; exact le_refl _
  | succ fuel ih =>
    intro iAhead
    unfold plateauEnd
    split
    · exact le_trans (Nat.le_succ _) (ih (iAhead + 1))
    · exact le_refl _

theorem piAhead_ge (x : List ℚ) (iMax i : ℕ) : i + 1 ≤ piAhead x iMax i :=
  plateauEnd_ge x iMax _ iMax (i + 1)

theorem lmAux_mem_ge (x : List ℚ) (iMax : ℕ) :
    ∀ (fuel i m : ℕ), m ∈ lmAux x iMax i fuel → i ≤ m := by
  intro fuel
  induction fuel with
  | zero => intro i m h; exact absurd h (by simp [lmAux])
  | succ fuel ih =>
    intro i m h
    unfold lmAux at h
    split at h
    · split at h
      · split at h
        · rcases List.mem_cons.mp h with rfl | hmem
          · have := piAhead_ge x iMax i
            omega
          · have h1 := ih _ _ hmem
            have h2 := piAhead_ge x iMax i
            omega
        · exact le_trans (Nat.le_succ i) (ih _ _ h)
      · exact le_trans (Nat.le_succ i) (ih _ _ h)
    · exact absurd h (by simp)

theorem lmAux_pairwise (x : List ℚ) (iMax : ℕ) :
    ∀ (fuel i : ℕ), (lmAux x iMax i fuel).Pairwise (· < ·) := by
  intro fuel
  induction fuel with
  | zero => intro i; simp [lmAux]
  | succ fuel ih =>
    intro i
    unfold lmAux
    split
    · split
      · split
        · refine List.pairwise_cons.mpr ⟨?_, ih _⟩
          intro m hm
          have h1 := lmAux_mem_ge x iMax fuel (piAhead x iMax i + 1) m hm
          have h2 := piAhead_ge x iMax i
          omega
        · exact ih _
      · exact ih _
    · simp

theorem localMaxima_pairwise (x : List ℚ) : (localMaxima x).Pairwise (· < ·) :=
  lmAux_pairwise x (x.length - 1) (x.length + 1) 1

theorem getD_set_false (l : List Bool) (k i : ℕ)
    (h : l.getD i false = false) : (l.set k false).getD i false = false := by
  induction l generalizing k i with
  | nil => exact h
  | cons a t ih =>
    cases k with
    | zero =>
      cases i with
      | zero => rfl
      | succ i => exact h
    | succ k =>
      cases i with
      | zero => exact h
      | succ i => exact ih k i h

theorem getD_set_false_self (l : List Bool) (k : ℕ) (hk : k < l.length) :
    (l.set k false).getD k false = false := by
  induction l generalizing k with
  | nil => simp at hk
  | cons a t ih =>
    cases k with
    | zero => rfl
    | succ k => exact ih k (by simpa using hk)

theorem markLeft_false_mono (peaks : List ℕ) (pj d : ℕ) :
    ∀ (k : ℕ) (keep : List Bool) (i : ℕ), keep.getD i false = false →
      (markLeft peaks pj d keep k).getD i false = false := by
  intro k
  induction k with
  | zero => intro keep i h; exact h
  | succ k ih =>
    intro keep i h
    unfold markLeft
    split
    · exact ih _ _ (getD_set_false _ _ _ h)
    · exact h

theorem markRight_false_mono (peaks : List ℕ) (pj d : ℕ) :
    ∀ (fuel k : ℕ) (keep : List Bool) (i : ℕ), keep.getD i false = false →
      (markRight peaks pj d keep k fuel).getD i false = false := by
  intro fuel
  induction fuel with
  | zero => intro k keep i h; exact h
  | succ fuel ih =>
    intro k keep i h
    unfold markRight
    split
    · exact ih _ _ _ (getD_set_false _ _ _ h)
    · exact h

theorem spdLoop_false_mono (peaks : List ℕ) (d : ℕ) :
    ∀ (order : List ℕ) (keep : List Bool) (i : ℕ), keep.getD i false = false →
      (spdLoop peaks d keep order).getD i false = false := by
  intro order
  induction order with
  | nil => intro keep i h; exact h
  | cons j rest ih =>
    intro keep i h
    unfold spdLoop
    split
    · exact ih _ _ (markRight_false_mono _ _ _ _ _ _ _
        (markLeft_false_mono _ _ _ _ _ _ h))
    · exact ih _ _ h

theorem markLeft_length (peaks : List ℕ) (pj d : ℕ) :
    ∀ (k : ℕ) (keep : List Bool), (markLeft peaks pj d keep k).length = keep.length := by
  intro k
  induction k with
  | zero => intro keep; rfl
  | succ k ih =>
    intro keep
    unfold markLeft
    split
    · rw [ih]; simp
    · rfl

theorem markRight_length (peaks : List ℕ) (pj d : ℕ) :
    ∀ (fuel k : ℕ) (keep : List Bool),
      (markRight peaks pj d keep k fuel).length = keep.length := by
  intro fuel
  induction fuel with
  | zero => intro k keep; rfl
  | succ fuel ih =>
    intro k keep
    unfold markRight
    split
    · rw [ih]; simp
    · rfl

theorem markLeft_covers (peaks : List ℕ) (pj d : ℕ) :
    ∀ (k : ℕ) (keep : List Bool) (t : ℕ), t < k → t < keep.length →
      (∀ u, t ≤ u → u < k → (pj : ℤ) - (peaks.getD u 0 : ℤ) < (d : ℤ)) →
      (markLeft peaks pj d keep k).getD t false = false := by
  intro k
  induction k with
  | zero => intro keep t ht _ _; omega
  | succ k ih =>
    intro keep t ht hlen hall
    unfold markLeft
    rw [if_pos (hall k (by omega) (by omega))]
    rcases Nat.lt_or_ge t k with h | h
    · exact ih _ t h (by simpa using hlen) (fun u hu1 hu2 => hall u hu1 (by omega))
    · have : t = k := by omega
      subst this
      exact markLeft_false_mono peaks pj d t _ t (getD_set_false_self keep t hlen)

theorem markRight_covers (peaks : List ℕ) (pj d : ℕ) :
    ∀ (fuel k : ℕ) (keep : List Bool) (t : ℕ), k ≤ t → t < k + fuel → t < keep.length →
      (∀ u, k ≤ u → u ≤ t → u < peaks.length ∧
        (peaks.getD u 0 : ℤ) - (pj : ℤ) < (d : ℤ)) →
      (markRight peaks pj d keep k fuel).getD t false = false := by
  intro fuel
  induction fuel with
  | zero => intro k keep t h1 h2 _ _; omega
  | succ fuel ih =>
    intro k keep t h1 h2 hlen hall
    unfold markRight
    rw [if_pos (hall k (le_refl k) h1)]
    rcases Nat.lt_or_ge k t with h | h
    · exact ih (k + 1) _ t (by omega) (by omega) (by simpa using hlen)
        (fun u hu1 hu2 => hall u (by omega) hu2)
    · have : t = k := by omega
      subst this
      exact markRight_false_mono peaks pj d fuel (t + 1) _ t
        (getD_set_false_self keep t hlen)

theorem pairwise_getD_mono (peaks : List ℕ) (hs : peaks.Pairwise (· < ·))
    (a b : ℕ) (hab : a ≤ b) (hb : b < peaks.length) :
    peaks.getD a 0 ≤ peaks.getD b 0 := by
  rcases Nat.eq_or_lt_of_le hab with rfl | h
  · exact le_refl _
  · have := List.pairwise_iff_getElem.mp hs a b (by omega) hb h
    rw [List.getD_eq_getElem?_getD, List.getD_eq_getElem?_getD,
      List.getElem?_eq_getElem (by omega : a < peaks.length),
      List.getElem?_eq_getElem hb]
    exact le_of_lt this

theorem spdLoop_not_both (peaks : List ℕ) (d : ℕ)
    (hsorted : peaks.Pairwise (· < ·)) (t1 t2 : ℕ) (h12 : t1 < t2)
    (h2n : t2 < peaks.length)
    (hclose : (peaks.getD t2 0 : ℤ) - (peaks.getD t1 0 : ℤ) < (d : ℤ)) :
    ∀ (order : List ℕ) (keep : List Bool), keep.length = peaks.length →
      t1 ∈ order → t2 ∈ order →
      (spdLoop peaks d keep order).getD t1 false = false ∨
      (spdLoop peaks d keep order).getD t2 false = false := by
  intro order
  induction order with
  | nil => intro keep _ h1 _; exact absurd h1 (List.not_mem_nil t1)
  | cons j rest ih =>
    intro keep hk h1 h2
    unfold spdLoop
    split
    · rcases eq_or_ne j t1 with rfl | hj1
      · right
        apply spdLoop_false_mono
        apply markRight_covers peaks _ d peaks.length (j + 1) _ t2 (by omega)
          (by omega) (by rw [markLeft_length, hk]; omega)
        intro u hu1 hu2
        refine ⟨by omega, ?_⟩
        have hmono := pairwise_getD_mono peaks hsorted u t2 hu2 h2n
        omega
      · rcases eq_or_ne j t2 with rfl | hj2
        · left
          apply spdLoop_false_mono
          apply markRight_false_mono
          apply markLeft_covers peaks _ d j keep t1 h12 (by omega)
          intro u hu1 hu2
          have hmono := pairwise_getD_mono peaks hsorted t1 u hu1 (by omega)
          omega
        · have h1r : t1 ∈ rest := by
            rcases List.mem_cons.mp h1 with h | h
            · exact absurd h.symm hj1
            · exact h
          have h2r : t2 ∈ rest := by
            rcases List.mem_cons.mp h2 with h | h
            · exact absurd h.symm hj2
            · exact h
          exact ih _ (by rw [markRight_length, markLeft_length, hk]) h1r h2r
    · next hfalse =>
      rcases eq_or_ne j t1 with rfl | hj1
      · left
        exact spdLoop_false_mono peaks d rest keep j (by
          cases h : keep.getD j false
          · rfl
          · exact absurd h hfalse)
      · rcases eq_or_ne j t2 with rfl | hj2
        · right
          exact spdLoop_false_mono peaks d rest keep j (by
            cases h : keep.getD j false
            · rfl
            · exact absurd h hfalse)
        · have h1r : t1 ∈ rest := by
            rcases List.mem_cons.mp h1 with h | h
            · exact absurd h.symm hj1
            · exact h
          have h2r : t2 ∈ rest := by
            rcases List.mem_cons.mp h2 with h | h
            · exact absurd h.symm hj2
            · exact h
          exact ih _ hk h1r h2r

theorem find_peaks_pairwise (x : List ℚ) (d : ℕ) :
    (find_peaks x d).Pairwise (fun a b => a + d ≤ b) := by
  unfold find_peaks
  rw [List.pairwise_map]
  have hfil : ((List.range (localMaxima x).length).filter (fun t =>
      (selectByPeakDistance (localMaxima x)
        ((localMaxima x).map (fun i => x.getD i 0)) d).getD t false)).Pairwise (· < ·) :=
    (List.pairwise_lt_range _).filter _
  refine List.Pairwise.imp_of_mem ?_ hfil
  intro t1 t2 ht1 ht2 hlt
  have ht1n : t1 < (localMaxima x).length := by
    have := List.mem_filter.mp ht1
    simpa using this.1
  have ht2n : t2 < (localMaxima x).length := by
    have := List.mem_filter.mp ht2
    simpa using this.1
  have hk1 : (selectByPeakDistance (localMaxima x)
      ((localMaxima x).map (fun i => x.getD i 0)) d).getD t1 false = true :=
    (List.mem_filter.mp ht1).2
  have hk2 : (selectByPeakDistance (localMaxima x)
      ((localMaxima x).map (fun i => x.getD i 0)) d).getD t2 false = true :=
    (List.mem_filter.mp ht2).2
  by_contra hcon
  have hclose : ((localMaxima x).getD t2 0 : ℤ) - ((localMaxima x).getD t1 0 : ℤ)
      < (d : ℤ) := by omega
  have hmem : ∀ t, t < (localMaxima x).length →
      t ∈ (argsortPriority ((localMaxima x).map (fun i => x.getD i 0))).reverse := by
    intro t ht
    rw [List.mem_reverse]
    unfold argsortPriority
    rw [(List.perm_insertionSort _ _).mem_iff]
    simp only [List.length_map, List.mem_range]
    exact ht
  have := spdLoop_not_both (localMaxima x) d (localMaxima_pairwise x) t1 t2 hlt ht2n
    hclose (argsortPriority ((localMaxima x).map (fun i => x.getD i 0))).reverse
    (List.replicate (localMaxima x).length true) (by simp)
    (hmem t1 ht1n) (hmem t2 ht2n)
  unfold selectByPeakDistance at hk1 hk2
  rcases this with h | h
  · rw [h] at hk1; exact Bool.noConfusion hk1
  · rw [h] at hk2; exact Bool.noConfusion hk2

/-- C5 (amended): for every high and low series and every positive minimum
separation, any two distinct peak indices returned by find_swings differ by
at least the minimum separation.  A peak and a trough CAN share an index
(peaks come from the high series and troughs from the negated low series,
computed independently); the counterexample pins this. -/
theorem find_swings_peak_separation (high low : List ℚ) (cfg : SRConfig)
    (_hd : 1 ≤ cfg.distance) :
    ∀ a ∈ (find_swings high low cfg).1, ∀ b ∈ (find_swings high low cfg).1,
      a ≠ b → cfg.distance ≤ max a b - min a b := by
  have hp := find_peaks_pairwise high cfg.distance
  have hsym : Symmetric (fun a b : ℕ => cfg.distance ≤ max a b - min a b) := by
    intro a b h
    omega
  have himp : (find_peaks high cfg.distance).Pairwise
      (fun a b : ℕ => cfg.distance ≤ max a b - min a b) :=
    hp.imp (fun {a b} h => by omega)
  intro a ha b hb hab
  exact himp.forall hsym ha hb hab

theorem find_swings_peak_separation_witness :
    1 ≤ (⟨5, 1, 2⟩ : SRConfig).distance ∧
    ∀ a ∈ (find_swings [1, 3, 1] [1, 0, 1] ⟨5, 1, 2⟩).1,
      ∀ b ∈ (find_swings [1, 3, 1] [1, 0, 1] ⟨5, 1, 2⟩).1,
        a ≠ b → (⟨5, 1, 2⟩ : SRConfig).distance ≤ max a b - min a b :=
  ⟨by decide, find_swings_peak_separation [1, 3, 1] [1, 0, 1] ⟨5, 1, 2⟩ (by decide)⟩

/-- C5 counterexample: with highs [1, 3, 1], lows [1, 0, 1] and minimum
separation 1 (positive), find_swings returns peak indices [1] and trough
indices [1]: the same index is both a peak and a trough, refuting the part of
the claim that a peak and a trough index are never equal. -/
theorem find_swings_same_index_counterexample :
    1 ≤ (⟨1, 1, 2⟩ : SRConfig).distance ∧
    find_swings [1, 3, 1] [1, 0, 1] ⟨1, 1, 2⟩ = ([1], [1]) := by decide


/-! ### Level extractor (compute_sr_levels, sr_core.py lines 26-37) -/

/-- The High/Low/index view of the DataFrame used for level extraction. -/
structure SFrame where
  index : List ℕ
  high : List ℚ
  low : List ℚ
deriving DecidableEq

/-- The resistance dictionaries built from the peak indices. -/
def resistanceLevels (f : SFrame) (peaks : List ℕ) : List SRLevel :=
  peaks.map (fun i => ⟨LevelType.resistance, f.high.getD i 0, f.index.getD i 0⟩)

/-- The support dictionaries built from the trough indices. -/
def supportLevels (f : SFrame) (troughs : List ℕ) : List SRLevel :=
  troughs.map (fun i => ⟨LevelType.support, f.low.getD i 0, f.index.getD i 0⟩)

/-- Embedding of `compute_sr_levels` (sr_core.py lines 26-37): resistance
levels from the peaks, support levels from the troughs, concatenated and then
sorted ascending by date.  Python `list.sort` is stable and so is insertion
sort with a non-strict key comparison. -/
def compute_sr_levels (f : SFrame) (cfg : SRConfig) : List SRLevel :=
  List.insertionSort (fun a b => a.date ≤ b.date)
    (resistanceLevels f (find_swings f.high f.low cfg).1 ++
     supportLevels f (find_swings f.high f.low cfg).2)

instance : IsTotal SRLevel (fun a b => a.date ≤ b.date) :=
  ⟨fun a b => Nat.le_total a.date b.date⟩

instance : IsTrans SRLevel (fun a b => a.date ≤ b.date) :=
  ⟨fun _ _ _ => Nat.le_trans⟩

/-- C8: the level sequence returned by compute_sr_levels is sorted
non-decreasing by timestamp, and is exactly (a permutation of) the peak
indices mapped to resistance levels priced at the high of their bar plus the
trough indices mapped to support levels priced at the low of their bar. -/
theorem compute_sr_levels_sorted_and_complete (f : SFrame) (cfg : SRConfig) :
    (compute_sr_levels f cfg).Pairwise (fun a b => a.date ≤ b.date) ∧
    (compute_sr_levels f cfg).Perm
      (resistanceLevels f (find_swings f.high f.low cfg).1 ++
       supportLevels f (find_swings f.high f.low cfg).2) := by
  constructor
  · exact List.sorted_insertionSort _ _
  · exact List.perm_insertionSort _ _

/-! ### Analysis orchestrator (analyze, sr_core.py lines 121-184)

The raw tabular input is embedded with named columns of optional rational
cells: a `none` cell is a value that is missing or fails numeric coercion
(`pd.to_numeric(..., errors="coerce")` makes both NaN).  The index is already
a list of timestamps: the multi-level-header flattening and
`pd.to_datetime` index conversion of lines 152-153 and 173-178 act as the
identity on this representation (their failure modes concern exotic raw
inputs outside the data model of the specification). -/

structure RawFrame where
  cols : List (String × List (Option ℚ))
  index : List ℕ
deriving DecidableEq

/-- The error raised by analyze (Python ValueError; the specification labels
these InputError / SchemaError). -/
inductive AnalyzeError where
  | valueError (msg : String)
deriving DecidableEq

/-- ASCII lowercasing of one character, as `str.lower()` acts on the ASCII
column names in play. -/
def lowerChar (c : Char) : Char :=
  if 65 ≤ c.toNat ∧ c.toNat ≤ 90 then Char.ofNat (c.toNat + 32) else c

/-- ASCII lowercasing of `col.lower()`. -/
def lowerStr (s : String) : String := ⟨s.toList.map lowerChar⟩

/-- Column renaming map of lines 155-163: case-insensitive substring match
against open/high/low/close/volume, first pattern wins, unmatched names kept. -/
def canonName (c : String) : String :=
  if strContains (lowerStr c) "open" then "Open"
  else if strContains (lowerStr c) "high" then "High"
  else if strContains (lowerStr c) "low" then "Low"
  else if strContains (lowerStr c) "close" then "Close"
  else if strContains (lowerStr c) "volume" then "Volume"
  else c

/-- `data.rename(columns=col_map)`. -/
def renameCols (r : RawFrame) : RawFrame :=
  { r with cols := r.cols.map (fun c => (canonName c.1, c.2)) }

/-- Column lookup by name (first match). -/
def getCol (r : RawFrame) (name : String) : List (Option ℚ) :=
  match r.cols.find? (fun c => c.1 == name) with
  | some c => c.2
  | none => []

/-- `required_cols.issubset(data.columns)` (line 166). -/
def requiredPresent (r : RawFrame) : Bool :=
  ["High", "Low", "Open", "Close", "Volume"].all (fun n => r.cols.any (fun c => c.1 == n))

/-- Row `i` survives `dropna(subset=["Open","High","Low","Close","Volume"])`. -/
def rowOk (r : RawFrame) (i : ℕ) : Bool :=
  ["Open", "High", "Low", "Close", "Volume"].all
    (fun n => ((getCol r n).getD i none).isSome)

/-- Positions of the rows kept by `dropna` (line 171). -/
def keptRows (r : RawFrame) : List ℕ :=
  (List.range r.index.length).filter (rowOk r)

/-- Values of a canonical column after `dropna`. -/
def colVals (r : RawFrame) (name : String) : List ℚ :=
  (keptRows r).map (fun i => ((getCol r name).getD i none).getD 0)

/-- Index after `dropna`. -/
def prepIndex (r : RawFrame) : List ℕ :=
  (keptRows r).map (fun i => r.index.getD i 0)

/-- Lines 150-184 of analyze applied to the fetched frame: rename columns,
check the required ones, drop incomplete rows, compute levels, add the
RSI/MACD/MACD_Signal columns and generate signals. -/
def analyzePipeline (r0 : RawFrame) (cfg : SRConfig)
    (rsi_period macd_fast macd_slow macd_signal : ℕ) (use_volume : Bool) :
    Except AnalyzeError (List SRLevel × IndicatorFrame × List Signal) :=
  if requiredPresent (renameCols r0) then
    Except.ok
      (compute_sr_levels
        ⟨prepIndex (renameCols r0), colVals (renameCols r0) "High",
          colVals (renameCols r0) "Low"⟩ cfg,
       { index := prepIndex (renameCols r0)
         close := colVals (renameCols r0) "Close"
         volume := some (colVals (renameCols r0) "Volume")
         rsi := some (compute_rsi (colVals (renameCols r0) "Close") rsi_period)
         macd := some (compute_macd (colVals (renameCols r0) "Close")
           macd_fast macd_slow macd_signal).1
         macdSig := some (compute_macd (colVals (renameCols r0) "Close")
           macd_fast macd_slow macd_signal).2 },
       generate_signals
         { index := prepIndex (renameCols r0)
           close := colVals (renameCols r0) "Close"
           volume := some (colVals (renameCols r0) "Volume")
           rsi := some (compute_rsi (colVals (renameCols r0) "Close") rsi_period)
           macd := some (compute_macd (colVals (renameCols r0) "Close")
             macd_fast macd_slow macd_signal).1
           macdSig := some (compute_macd (colVals (renameCols r0) "Close")
             macd_fast macd_slow macd_signal).2 }
         (compute_sr_levels
           ⟨prepIndex (renameCols r0), colVals (renameCols r0) "High",
             colVals (renameCols r0) "Low"⟩ cfg)
         use_volume)
  else Except.error (.valueError "Data must contain columns: High, Low, Open, Close, Volume")

/-- Python `period or "6mo"` / `interval or "1d"`: None and the empty string
are falsy. -/
def orDefault (o : Option String) (dflt : String) : String :=
  match o with
  | some s => if s == "" then dflt else s
  | none => dflt

/-- `data.empty`: an axis of length zero. -/
def frameEmpty (r : RawFrame) : Bool := r.index.isEmpty || r.cols.isEmpty

/-- `elif csv_path:` — None and the empty string are falsy. -/
def csvTruthy (o : Option String) : Bool :=
  match o with
  | some s => !(s == "")
  | none => false

/-- Embedding of `analyze` (sr_core.py lines 121-184).  `readCsv` and
`download` stand for `pd.read_csv` and `yf.download`.  The first component is
the returned triple or the raised ValueError; the second component is the
frame the caller-supplied `df` refers to after the call — line 141 copies
(`data = df.copy()`), and the in-place operations (rename at 163, the
`inplace=True` dropna at 171, `set_index` at 176, the index and column
assignments at 178-182) all target the copy `data`, so the caller frame is
returned unchanged in every branch. -/
def analyze (symbol period interval csv_path : Option String) (df : Option RawFrame)
    (cfg : Option SRConfig) (rsi_period macd_fast macd_slow macd_signal : ℕ)
    (use_volume : Bool) (readCsv : String → RawFrame)
    (download : String → String → String → RawFrame) :
    Except AnalyzeError (List SRLevel × IndicatorFrame × List Signal) × Option RawFrame :=
  (match df with
   | some frame =>
     analyzePipeline frame (cfg.getD ⟨5, 1 / 100, 2⟩)
       rsi_period macd_fast macd_slow macd_signal use_volume
   | none =>
     if csvTruthy csv_path then
       analyzePipeline (readCsv (csv_path.getD "")) (cfg.getD ⟨5, 1 / 100, 2⟩)
         rsi_period macd_fast macd_slow macd_signal use_volume
     else
       match symbol with
       | some s =>
         if frameEmpty (download s (orDefault period "6mo") (orDefault interval "1d")) then
           Except.error (.valueError "No data fetched from yfinance. Check symbol or internet.")
         else
           analyzePipeline (download s (orDefault period "6mo") (orDefault interval "1d"))
             (cfg.getD ⟨5, 1 / 100, 2⟩) rsi_period macd_fast macd_slow macd_signal use_volume
       | none => Except.error (.valueError "Must provide df, csv_path, or symbol to analyze."),
   df)


/-- A valid one-row OHLCV raw frame. -/
def rawOneRow : RawFrame :=
  { cols := [("Open", [some 1]), ("High", [some 1]), ("Low", [some 1]),
             ("Close", [some 1]), ("Volume", [some 1])]
    index := [0] }

/-- C3 counterexample: with all three data sources provided at once — a
pre-loaded frame, a CSV path and a symbol — analyze succeeds using the
pre-loaded frame instead of failing: the specifiers are prioritised
(df, then csv_path, then symbol), not checked for mutual exclusion. -/
theorem analyze_multiple_sources_counterexample :
    (analyze (some "AAPL") none none (some "prices.csv") (some rawOneRow) none
      14 12 26 9 false (fun _ => rawOneRow) (fun _ _ _ => rawOneRow)).1.isOk = true := by
  rfl

/-- C3 (amended): analyze fails when no data source is provided (df absent,
csv_path absent or the falsy empty string, symbol absent) and when the symbol
download returns an empty frame; when more than one source is provided, the
highest-priority one (pre-loaded frame, then CSV path, then symbol) is used
and no error is raised. -/
theorem analyze_errors_amended (symbol period interval csv_path : Option String)
    (cfg : Option SRConfig) (rsi_period macd_fast macd_slow macd_signal : ℕ)
    (use_volume : Bool) (readCsv : String → RawFrame)
    (download : String → String → String → RawFrame)
    (hcsv : csvTruthy csv_path = false)
    (hsym : ∀ s, symbol = some s →
      frameEmpty (download s (orDefault period "6mo") (orDefault interval "1d")) = true) :
    (analyze symbol period interval csv_path none cfg rsi_period macd_fast macd_slow
      macd_signal use_volume readCsv download).1.isOk = false := by
  unfold analyze
  dsimp only
  rw [hcsv]
  cases symbol with
  | none => rfl
  | some s =>
    rw [if_neg Bool.false_ne_true]
    dsimp only
    rw [hsym s rfl, if_pos rfl]
    rfl

/-- A download stub returning an empty frame. -/
def emptyDownload : String → String → String → RawFrame := fun _ _ _ => ⟨[], []⟩

theorem analyze_errors_amended_witness :
    (csvTruthy none = false ∧
      (∀ s, (some "MSFT" : Option String) = some s →
        frameEmpty (emptyDownload s (orDefault none "6mo") (orDefault none "1d")) = true)) ∧
    (analyze (some "MSFT") none none none none none 14 12 26 9 false
      (fun _ => rawOneRow) emptyDownload).1.isOk = false :=
  ⟨⟨rfl, fun _ _ => rfl⟩,
   analyze_errors_amended (some "MSFT") none none none none 14 12 26 9 false
     (fun _ => rawOneRow) emptyDownload rfl (fun _ _ => rfl)⟩

/-- C10: analyze called with a pre-loaded frame never mutates it: line 141
copies the input (`data = df.copy()`) and every subsequent transformation —
column renaming, `dropna(..., inplace=True)`, index conversion and the
RSI/MACD/MACD_Signal column assignments — targets the copy, so the frame the
caller holds after the call is exactly the frame passed in, in every branch
and whatever the other arguments are. -/
theorem analyze_preserves_caller_frame (symbol period interval csv_path : Option String)
    (frame : RawFrame) (cfg : Option SRConfig)
    (rsi_period macd_fast macd_slow macd_signal : ℕ) (use_volume : Bool)
    (readCsv : String → RawFrame) (download : String → String → String → RawFrame) :
    (analyze symbol period interval csv_path (some frame) cfg rsi_period macd_fast
      macd_slow macd_signal use_volume readCsv download).2 = some frame := rfl

end SRCore

